import Mathlib

/-!
Verification development for the sim-core naval battle engine.

Modelling conventions, used uniformly below:
* Rust `u16` values are modelled by `Nat`; where the source relies on
  saturating subtraction (`saturating_sub`) this coincides with `Nat`
  subtraction, and the one wrapping subtraction in the source is made
  explicit.  The `as u16` cast of a non-negative `f64` truncates and
  saturates; it is modelled by `f64_as_u16`.
* Rust `f64` arithmetic is modelled by exact rational arithmetic (`ℚ`);
  every constant appearing in the source (0.5, 0.3, 0.7, 0.6, 0.06, 0.08,
  1.5, the direction and damage factors, the 220 cap) is a rational.
* The square root in the firepower cap is the only non-rational operation;
  it is modelled by the integer square root of the floor, which agrees
  with the floor of the real square root on non-negative arguments (proved
  in the development below).
* A Rust panic (out-of-bounds index, `Option::unwrap` on `None`,
  `id[2]` on a short vector) is modelled by `Option.none`; functions that
  can panic return `Option`.
* The random source is modelled by explicit streams: a stream of `ℚ`
  draws for `rand::random::<f64>()` (each in `[0,1)` where a theorem needs
  it) and a stream of `Nat` draws for `random_range(0..n)` taken modulo
  `n`.
-/

namespace SimCore

/-- Range enum from fleet/status.rs and interface.rs: ordered
None < Short < Medium < Long < VeryLong < VeryVeryLong. -/
inductive Range where
  | none
  | short
  | medium
  | long
  | veryLong
  | veryVeryLong
deriving DecidableEq

/-- Discriminant order of the Range enum (the derived Rust Ord). -/
def Range.toNat : Range → Nat
  | .none => 0
  | .short => 1
  | .medium => 2
  | .long => 3
  | .veryLong => 4
  | .veryVeryLong => 5

/-- Binary max on ranges via the derived order (std::cmp::max). -/
def rangeMax (a b : Range) : Range :=
  if a.toNat ≤ b.toNat then b else a

/-- Equipment status record (interface.rs EquipmentStatus); only the fields
the battle engine reads are kept. -/
structure EquipmentStatus where
  firepower : Nat
  armor : Nat
  torpedo : Nat
  bombing : Nat
  range : Range
deriving DecidableEq

/-- Equipment record (interface.rs Equipment): the lenient deserializer
leaves equipTypeId and status optional. -/
structure Equipment where
  equipTypeId : Option (List Nat)
  status : Option EquipmentStatus
deriving DecidableEq

/-- Equipment::bombing — status.as_ref().map_or(0, |s| s.bombing). -/
def Equipment.bombing (e : Equipment) : Nat :=
  (e.status.map (·.bombing)).getD 0

/-- Equipment::range — status.as_ref().map_or(Range::default(), |s| s.range). -/
def Equipment.range (e : Equipment) : Range :=
  (e.status.map (·.range)).getD Range.none

/-- Equipment::is_attack_aircraft — returns false when equip_type_id is
None, otherwise reads id[2]: indexing a vector of length < 3 is a Rust
panic, modelled by Option.none. -/
def Equipment.is_attack_aircraft (e : Equipment) : Option Bool :=
  match e.equipTypeId with
  | Option.none => some false
  | some id =>
    match id.get? 2 with
    | Option.none => none
    | some v => some (v == 7 || v == 8)

/-- Ship status record (interface.rs ShipStatus); only the fields the
battle engine reads are kept. -/
structure ShipStatus where
  maxHp : Nat
  nowHp : Nat
  firepower : Nat
  armor : Nat
  torpedo : Nat
  range : Option Range
deriving DecidableEq

/-- Ship record (interface.rs Ship). -/
structure Ship where
  shipTypeId : Option Nat
  status : ShipStatus
  equips : List Equipment
deriving DecidableEq

/-- Ship::max_hp. -/
def Ship.max_hp (s : Ship) : Nat := s.status.maxHp

/-- Ship::hp — HP at battle entry. -/
def Ship.hp (s : Ship) : Nat := s.status.nowHp

/-- Ship::firepower. -/
def Ship.firepower (s : Ship) : Nat := s.status.firepower

/-- Ship::armor. -/
def Ship.armor (s : Ship) : Nat := s.status.armor

/-- Ship::torpedo. -/
def Ship.torpedo (s : Ship) : Nat := s.status.torpedo

/-- Ship::bombing — sum of equipment bombing stats. -/
def Ship.bombing (s : Ship) : Nat :=
  (s.equips.map Equipment.bombing).sum

/-- Ship::range — max of the hull range (default None) and the equipment
ranges (iterator max, default None). -/
def Ship.range (s : Ship) : Range :=
  rangeMax (s.status.range.getD Range.none)
    ((s.equips.map Equipment.range).foldl rangeMax Range.none)

/-- Ship::ship_type_id — unwrap_or(0). -/
def Ship.ship_type_id (s : Ship) : Nat := s.shipTypeId.getD 0

/-- Ship::is_battleship_class — class id in {8, 9, 10, 12}. -/
def Ship.is_battleship_class (s : Ship) : Bool :=
  s.ship_type_id == 8 || s.ship_type_id == 9 || s.ship_type_id == 10 ||
    s.ship_type_id == 12

/-- Iterator any over is_attack_aircraft, with Rust short-circuiting:
a panic in an equipment checked before the first attack aircraft
propagates. -/
def anyAttackAircraft : List Equipment → Option Bool
  | [] => some false
  | e :: rest =>
    match e.is_attack_aircraft with
    | Option.none => none
    | some true => some true
    | some false => anyAttackAircraft rest

/-- Ship::has_attack_aircraft — equips.iter().any(is_attack_aircraft). -/
def Ship.has_attack_aircraft (s : Ship) : Option Bool :=
  anyAttackAircraft s.equips

/-- Battle direction enum (battle_legacy/battle_direction.rs). -/
inductive BattleDirection where
  | same
  | against
  | tAdvantage
  | tDisadvantage
deriving DecidableEq

/-- BattleDirection::fp_factor — 1.0 / 0.8 / 1.2 / 0.6. -/
def BattleDirection.fp_factor : BattleDirection → ℚ
  | .same => 1
  | .against => 8/10
  | .tAdvantage => 12/10
  | .tDisadvantage => 6/10

/-- DamagedLevel enum (battle/fighting_ship.rs). -/
inductive DamagedLevel where
  | noDamage
  | minor
  | moderate
  | heavy
  | sunk
deriving DecidableEq

/-- Discriminant order of DamagedLevel (the derived Rust PartialOrd:
NoDamage < Minor < Moderate < Heavy < Sunk). -/
def DamagedLevel.toNat : DamagedLevel → Nat
  | .noDamage => 0
  | .minor => 1
  | .moderate => 2
  | .heavy => 3
  | .sunk => 4

/-- DamagedLevel::fp_factor — 1.0 / 1.0 / 0.7 / 0.4 / 0.0. -/
def DamagedLevel.fp_factor : DamagedLevel → ℚ
  | .noDamage => 1
  | .minor => 1
  | .moderate => 7/10
  | .heavy => 4/10
  | .sunk => 0

/-- Ship snapshot (battle_legacy/ship_snapshot.rs): current HP only. -/
structure ShipSnapshot where
  hp : Nat
deriving DecidableEq

/-- ShipSnapshot::apply_damage — hp.saturating_sub(amount), which is Nat
subtraction. -/
def ShipSnapshot.apply_damage (s : ShipSnapshot) (amount : Nat) : ShipSnapshot :=
  ⟨s.hp - amount⟩

/-- Random source: a stream of f64 draws and a stream of range draws with
cursors.  random_range(0..n) is modelled by the stream value modulo n. -/
structure Rng where
  floats : Nat → ℚ
  floatIdx : Nat
  ints : Nat → Nat
  intIdx : Nat

/-- Draw one f64 (rand::random::<f64>()). -/
def Rng.nextFloat (g : Rng) : ℚ × Rng :=
  (g.floats g.floatIdx, { g with floatIdx := g.floatIdx + 1 })

/-- Draw one integer in [0, n) (rand::random_range(0..n)); the stream value
is reduced modulo n, so every in-range value is reachable. -/
def Rng.nextNat (g : Rng) (n : Nat) : Nat × Rng :=
  (g.ints g.intIdx % n, { g with intIdx := g.intIdx + 1 })

/-- Validity of a random source: every f64 draw lies in [0, 1), as
rand::random::<f64>() guarantees. -/
def Rng.Valid (g : Rng) : Prop :=
  ∀ i, 0 ≤ g.floats i ∧ g.floats i < 1

/-- Truncating-saturating cast of a f64 to u16 (the `as u16` cast):
truncation toward zero of a non-negative value is the floor; negative
values clamp to 0 and values above 65535 clamp to 65535. -/
def f64_as_u16 (x : ℚ) : Nat :=
  min (Int.toNat ⌊x⌋) 65535

/-- FightingShip (battle/fighting_ship.rs): immutable ship data plus the
mutable per-battle snapshot. -/
structure FightingShip where
  ship : Ship
  isFriend : Bool
  indexInFleet : Nat
  snapshot : ShipSnapshot
deriving DecidableEq

/-- FightingShip::new — snapshot initialised from the ship's entry HP. -/
def FightingShip.new (ship : Ship) (isFriend : Bool) (indexInFleet : Nat) :
    FightingShip :=
  ⟨ship, isFriend, indexInFleet, ⟨ship.hp⟩⟩

/-- FightingShip::hp_before — the ship's entry HP. -/
def FightingShip.hp_before (fs : FightingShip) : Nat := fs.ship.hp

/-- FightingShip::hp_now — the snapshot HP. -/
def FightingShip.hp_now (fs : FightingShip) : Nat := fs.snapshot.hp

/-- FightingShip::firepower. -/
def FightingShip.firepower (fs : FightingShip) : Nat := fs.ship.firepower

/-- FightingShip::armor. -/
def FightingShip.armor (fs : FightingShip) : Nat := fs.ship.armor

/-- FightingShip::torpedo. -/
def FightingShip.torpedo (fs : FightingShip) : Nat := fs.ship.torpedo

/-- FightingShip::bombing. -/
def FightingShip.bombing (fs : FightingShip) : Nat := fs.ship.bombing

/-- FightingShip::range. -/
def FightingShip.range (fs : FightingShip) : Range := fs.ship.range

/-- FightingShip::is_alive — snapshot HP > 0. -/
def FightingShip.is_alive (fs : FightingShip) : Bool :=
  decide (0 < fs.snapshot.hp)

/-- FightingShip::is_battleship_class. -/
def FightingShip.is_battleship_class (fs : FightingShip) : Bool :=
  fs.ship.is_battleship_class

/-- FightingShip::damaged_level — HP-ratio tiers; the ratio is computed in
f64, modelled exactly in ℚ. -/
def FightingShip.damaged_level (fs : FightingShip) : DamagedLevel :=
  let maxHp := fs.ship.max_hp
  let nowHp := fs.snapshot.hp
  let ratio : ℚ := (nowHp : ℚ) / (maxHp : ℚ)
  if nowHp = 0 then .sunk
  else if ratio ≤ 1/4 then .heavy
  else if ratio ≤ 1/2 then .moderate
  else if ratio ≤ 3/4 then .minor
  else .noDamage

/-- FightingShip::basic_fp — carrier formula floor((fp+torp+bomb)*1.5)+55,
otherwise fp+5; the carrier check can panic on malformed equipment. -/
def FightingShip.basic_fp (fs : FightingShip) : Option ℚ :=
  (fs.ship.has_attack_aircraft).map fun aircraft =>
    if aircraft then
      ((⌊((fs.firepower : ℚ) + (fs.torpedo : ℚ) + (fs.bombing : ℚ)) * (3/2)⌋ : ℤ) : ℚ) + 55
    else
      (fs.firepower : ℚ) + 5

/-- FightingShip::fp_precap_correction — basic * direction factor *
damaged-level factor. -/
def FightingShip.fp_precap_correction (fs : FightingShip) (firepower : ℚ)
    (directionFactor : ℚ) : ℚ :=
  firepower * directionFactor * fs.damaged_level.fp_factor

/-- Firepower capping (battle/fighting_ship.rs fp_capping, identical to
battle/fp_calculation.rs fp_capping):
firepower.min(cap) + floor(sqrt(max(firepower - cap, 0))).
The floor of the real square root of a non-negative value equals the
integer square root of its floor (theorem natSqrt_floor_eq below), which
keeps this definition computable. -/
def fp_capping (firepower cap : ℚ) : ℚ :=
  min firepower cap + (Nat.sqrt (Int.toNat ⌊max (firepower - cap) 0⌋) : ℚ)

/-- FightingShip::fp_postcap_correction — identity (reserved extension
point). -/
def fp_postcap_correction (firepower : ℚ) : ℚ := firepower

/-- FightingShip::calculate_firepower — basic, pre-cap, cap, post-cap. -/
def FightingShip.calculate_firepower (fs : FightingShip)
    (direction : BattleDirection) (cap : ℚ) : Option ℚ :=
  fs.basic_fp.map fun basic =>
    fp_postcap_correction
      (fp_capping (fs.fp_precap_correction basic direction.fp_factor) cap)

/-- FightingShip::apply_damage — the anti-sink rule.  When the target is
friend-side and the damage would sink it, the flagship (index 0) takes
floor(hp*0.5 + floor(hp*r)*0.3) for a fresh draw r instead, and any other
ship takes hp_now - 1.  The subtraction hp_now - 1 is u16 arithmetic: on a
0-HP target it wraps to 65535 (release-profile wrapping semantics).
Enemy-side targets take the damage unmodified.  The snapshot subtraction
saturates at 0. -/
def FightingShip.apply_damage (fs : FightingShip) (diff : Nat) (rng : Rng) :
    FightingShip × Rng :=
  if fs.isFriend = true ∧ fs.snapshot.hp ≤ diff then
    if fs.indexInFleet = 0 then
      let fr := rng.nextFloat
      let hp : ℚ := (fs.hp_now : ℚ)
      let d := f64_as_u16 ((⌊hp * (1/2) + ((⌊hp * fr.1⌋ : ℤ) : ℚ) * (3/10)⌋ : ℤ) : ℚ)
      ({ fs with snapshot := fs.snapshot.apply_damage d }, fr.2)
    else
      let d := if fs.hp_now = 0 then 65535 else fs.hp_now - 1
      ({ fs with snapshot := fs.snapshot.apply_damage d }, rng)
  else
    ({ fs with snapshot := fs.snapshot.apply_damage diff }, rng)

/-- Reasons for a skipped turn (the strings pushed by get_actor's two Err
paths, abstracted to tags). -/
inductive SkipReason where
  | deadActor
  | tooDamaged
deriving DecidableEq

/-- Log buffer entries (the Vec of Strings, abstracted to tagged events
carrying the data the format strings interpolate). -/
inductive LogEntry where
  | skipActor (reason : SkipReason)
  | skipNoTarget
  | fire (actorIsFriend : Bool) (actorIdx targetIdx : Nat) (damage : ℚ)
deriving DecidableEq

/-- Battle state (battle_legacy/mod.rs Battle). -/
structure Battle where
  direction : BattleDirection
  friendFleet : List FightingShip
  enemyFleet : List FightingShip
  logs : List LogEntry
deriving DecidableEq

/-- Battle::push_log. -/
def Battle.push_log (b : Battle) (e : LogEntry) : Battle :=
  { b with logs := b.logs ++ [e] }

/-- Battle::calculate_firepower — cap fixed at 220. -/
def Battle.calculate_firepower (b : Battle) (fs : FightingShip) : Option ℚ :=
  fs.calculate_firepower b.direction 220

/-- Battle::calculate_armor — armor*0.7 + floor(armor*r)*0.6 for one fresh
draw r. -/
def calculate_armor (fs : FightingShip) (rng : Rng) : ℚ × Rng :=
  let armor : ℚ := (fs.armor : ℚ)
  let fr := rng.nextFloat
  (armor * (7/10) + ((⌊armor * fr.1⌋ : ℤ) : ℚ) * (6/10), fr.2)

/-- Trivialized ("glancing") damage from the else branch of the damage
computation in fire_phase_helper: hp_now*0.06 + floor(hp_now*r)*0.08.
Note the 0.06 term is not floored in the source. -/
def trivialized_damage (hpNow : Nat) (r : ℚ) : ℚ :=
  (hpNow : ℚ) * (6/100) + ((⌊(hpNow : ℚ) * r⌋ : ℤ) : ℚ) * (8/100)

/-- Battle::apply_damage — looks up the target with get_mut, so an
out-of-range index is a silent no-op, and delegates to
FightingShip::apply_damage (which may draw for the flagship rule). -/
def Battle.apply_damage (b : Battle) (targetIsFriend : Bool)
    (targetIndex : Nat) (damage : Nat) (rng : Rng) : Battle × Rng :=
  if targetIsFriend then
    match b.friendFleet.get? targetIndex with
    | Option.none => (b, rng)
    | some t =>
      let tr := t.apply_damage damage rng
      ({ b with friendFleet := b.friendFleet.set targetIndex tr.1 }, tr.2)
  else
    match b.enemyFleet.get? targetIndex with
    | Option.none => (b, rng)
    | some t =>
      let tr := t.apply_damage damage rng
      ({ b with enemyFleet := b.enemyFleet.set targetIndex tr.1 }, tr.2)

/-- Battle::push_fire_log — formats a log line after looking up actor and
target by index; an out-of-range lookup is a Rust panic, modelled by
none. -/
def Battle.push_fire_log (b : Battle) (actorIsFriend : Bool)
    (actorIdx targetIdx : Nat) (damage : ℚ) : Option Battle :=
  let pair :=
    if actorIsFriend then (b.friendFleet.get? actorIdx, b.enemyFleet.get? targetIdx)
    else (b.enemyFleet.get? actorIdx, b.friendFleet.get? targetIdx)
  match pair with
  | (some _, some _) =>
    some { b with logs := b.logs ++ [.fire actorIsFriend actorIdx targetIdx damage] }
  | _ => none

/-- Stable insertion for the descending-by-range sort: the inserted
element goes before the first entry whose range is not strictly greater,
so equal-range entries keep their source order. -/
def insertByRangeDesc (x : Nat × FightingShip) :
    List (Nat × FightingShip) → List (Nat × FightingShip)
  | [] => [x]
  | y :: ys =>
    if x.2.range.toNat < y.2.range.toNat then y :: insertByRangeDesc x ys
    else x :: y :: ys

/-- Stable descending sort by range: sort_by_key(Reverse(range)) with
Rust's stable sort.  Any stable sort for the same key order produces the
same list, so the Rust merge sort is realised here by a stable insertion
sort. -/
def sortByRangeDesc : List (Nat × FightingShip) → List (Nat × FightingShip)
  | [] => []
  | x :: xs => insertByRangeDesc x (sortByRangeDesc xs)

/-- Interleaving loop shared by both orderings: in each round push one
element of the first list tagged true, then one of the second tagged
false, and let the longer list's tail run out. -/
def interleaveTagged : List Nat → List Nat → List (Bool × Nat)
  | [], bs => bs.map (fun b => (false, b))
  | a :: as, [] => (true, a) :: as.map (fun a2 => (true, a2))
  | a :: as, b :: bs => (true, a) :: (false, b) :: interleaveTagged as bs

/-- Battle::ordered_by_range — filters each side to alive ships, sorts each
side descending by range, then unwraps the head of both sorted lists to
compare best ranges (a panic when either side has no alive ship), and
interleaves.  The leading list is whichever side's best range is strictly
greater on the friend side, otherwise the enemy side; the interleave tags
the leading list true and the trailing list false unconditionally. -/
def Battle.ordered_by_range (b : Battle) : Option (List (Bool × Nat)) :=
  let fleet1 := sortByRangeDesc ((b.friendFleet.enum).filter (fun p => p.2.is_alive))
  let fleet2 := sortByRangeDesc ((b.enemyFleet.enum).filter (fun p => p.2.is_alive))
  match fleet1.head?, fleet2.head? with
  | some h1, some h2 =>
    let fs :=
      if h2.2.range.toNat < h1.2.range.toNat then
        (fleet1.map (·.1), fleet2.map (·.1))
      else
        (fleet2.map (·.1), fleet1.map (·.1))
    some (interleaveTagged fs.1 fs.2)
  | _, _ => none

/-- Battle::ordered_by_index — alive indices of each side in ascending
fleet order, interleaved friend-then-enemy. -/
def Battle.ordered_by_index (b : Battle) : List (Bool × Nat) :=
  interleaveTagged
    (((b.friendFleet.enum).filter (fun p => p.2.is_alive)).map (·.1))
    (((b.enemyFleet.enum).filter (fun p => p.2.is_alive)).map (·.1))

/-- Battle::get_actor — indexes the tagged fleet (an out-of-range index is
a panic), then the two skip checks: dead actor, and attack-aircraft
carrier at Moderate-or-worse damage (Moderate has discriminant 2). -/
def Battle.get_actor (b : Battle) (isFriend : Bool) (indexInFleet : Nat) :
    Option (Except SkipReason FightingShip) :=
  match (if isFriend then b.friendFleet.get? indexInFleet
         else b.enemyFleet.get? indexInFleet) with
  | Option.none => none
  | some actor =>
    if actor.is_alive = false then some (.error .deadActor)
    else
      match actor.ship.has_attack_aircraft with
      | Option.none => none
      | some aircraft =>
        if aircraft = true ∧ 2 ≤ actor.damaged_level.toNat then
          some (.error .tooDamaged)
        else some (.ok actor)

/-- Battle::choose_random_alive — counts alive ships, returns None when
none are alive (without drawing), otherwise draws an index below the count
and returns the nth alive ship. -/
def choose_random_alive (fleet : List FightingShip) (rng : Rng) :
    Option FightingShip × Rng :=
  let alive := fleet.filter (·.is_alive)
  if alive.length = 0 then (none, rng)
  else
    let ir := rng.nextNat alive.length
    (alive.get? ir.1, ir.2)

/-- Battle::get_target — a random alive ship of the side opposite the
actor. -/
def Battle.get_target (b : Battle) (actorIsFriend : Bool) (rng : Rng) :
    Option FightingShip × Rng :=
  choose_random_alive (if actorIsFriend then b.enemyFleet else b.friendFleet) rng

/-- Battle::includes_battleship_class — any ship of either fleet. -/
def Battle.includes_battleship_class (b : Battle) : Bool :=
  b.friendFleet.any (·.is_battleship_class) ||
    b.enemyFleet.any (·.is_battleship_class)

/-- Tail of one fire_phase_helper iteration once actor, target and the
final damage value are fixed: apply the damage to the target (with the
as-u16 cast) on the side opposite the actor, then push the fire log
(whose fleet lookups can panic). -/
def Battle.applyAndLog (b : Battle) (actorIsFriend : Bool)
    (actorIdx targetIdx : Nat) (damage : ℚ) (rng : Rng) :
    Option (Battle × Rng) :=
  let br := b.apply_damage (!actorIsFriend) targetIdx (f64_as_u16 damage) rng
  match br.1.push_fire_log actorIsFriend actorIdx targetIdx damage with
  | Option.none => none
  | some b2 => some (b2, br.2)

/-- One iteration of the fire_phase_helper loop for a single
(actor side tag, actor index) pair: fetch the actor (skips are logged),
pick a target (no-target is logged), compute firepower, armor and damage
(trivialized damage on a non-positive raw roll consumes one extra draw),
then apply and log. -/
def Battle.fireStep (b : Battle) (rng : Rng) (actorIsFriend : Bool)
    (actorIndex : Nat) : Option (Battle × Rng) :=
  match b.get_actor actorIsFriend actorIndex with
  | Option.none => none
  | some (.error reason) => some (b.push_log (.skipActor reason), rng)
  | some (.ok actor) =>
    let tgt := b.get_target actorIsFriend rng
    match tgt.1 with
    | Option.none => some (b.push_log .skipNoTarget, tgt.2)
    | some target =>
      match b.calculate_firepower actor with
      | Option.none => none
      | some firepower =>
        let ar := calculate_armor target tgt.2
        let rawDamage : ℚ := ((⌊firepower - ar.1⌋ : ℤ) : ℚ)
        let dr :=
          if 0 < rawDamage then (rawDamage, ar.2)
          else
            let fr := ar.2.nextFloat
            (trivialized_damage target.hp_now fr.1, fr.2)
        b.applyAndLog actor.isFriend actor.indexInFleet target.indexInFleet
          dr.1 dr.2

/-- Battle::fire_phase_helper — the loop over a fire order; a panic in any
iteration aborts the battle. -/
def Battle.fire_phase_helper (b : Battle) (rng : Rng) :
    List (Bool × Nat) → Option (Battle × Rng)
  | [] => some (b, rng)
  | (tag, idx) :: rest =>
    match b.fireStep rng tag idx with
    | Option.none => none
    | some br => br.1.fire_phase_helper br.2 rest

/-- Battle::fire_phase — phase 1 in range order, then, iff a
battleship-class ship is present on either side, phase 2 in index order. -/
def Battle.fire_phase (b : Battle) (rng : Rng) : Option (Battle × Rng) :=
  match b.ordered_by_range with
  | Option.none => none
  | some order =>
    match b.fire_phase_helper rng order with
    | Option.none => none
    | some br =>
      if br.1.includes_battleship_class then
        br.1.fire_phase_helper br.2 br.1.ordered_by_index
      else some br

/-- Battle result grades (interface.rs BattleResult). -/
inductive BattleResult where
  | SS
  | S
  | A
  | B
  | C
  | D
  | E
deriving DecidableEq

/-- Total damage taken by the friend side: sum over the friend fleet of
entry HP minus current HP (u16 subtraction; in any state reached by the
engine the current HP never exceeds the entry HP). -/
def Battle.total_damage_to_friend (b : Battle) : Nat :=
  (b.friendFleet.map (fun fs => fs.hp_before - fs.hp_now)).sum

/-- Battle::calculate_result — the grading decision tree.  Ratios are f64
divisions, modelled in ℚ (identifier suffixes differ from the source's
*_ratio names for technical reasons only). -/
def Battle.calculate_result (b : Battle) : Option BattleResult :=
  let friend_sunk := (b.friendFleet.filter (fun fs => !fs.is_alive)).length
  let enemy_sunk := (b.enemyFleet.filter (fun fs => !fs.is_alive)).length
  let total_friend_ships := b.friendFleet.length
  let friendSunkFrac : ℚ := (friend_sunk : ℚ) / (total_friend_ships : ℚ)
  let total_enemy_ships := b.enemyFleet.length
  let alive_enemy_ships := (b.enemyFleet.filter (·.is_alive)).length
  let enemySunkFrac : ℚ := (enemy_sunk : ℚ) / (total_enemy_ships : ℚ)
  let enemy_flagship_sunk : Bool :=
    ((b.enemyFleet.head?).map (fun fs => !fs.is_alive)).getD false
  let total_damage_to_friend := b.total_damage_to_friend
  let total_damage_to_enemy : Nat :=
    (b.enemyFleet.map (fun fs => fs.hp_before - fs.hp_now)).sum
  let total_friend_initial_hp : Nat := (b.friendFleet.map (fun fs => fs.ship.hp)).sum
  let total_enemy_initial_hp : Nat := (b.enemyFleet.map (fun fs => fs.ship.hp)).sum
  let friend_gauge : ℚ := (total_damage_to_enemy : ℚ) / (total_enemy_initial_hp : ℚ) * 100
  let enemy_gauge : ℚ := (total_damage_to_friend : ℚ) / (total_friend_initial_hp : ℚ) * 100
  let gaugeQuot : ℚ := friend_gauge / (enemy_gauge + 1/10000000000)
  if 0 < friend_sunk then
    if 5/2 ≤ gaugeQuot ∨ (enemy_flagship_sunk = true ∧ friend_sunk < enemy_sunk) then
      some .B
    else if enemy_flagship_sunk = true ∨ 1 ≤ gaugeQuot then some .C
    else if 1/2 ≤ friendSunkFrac then some .E
    else some .D
  else if alive_enemy_ships = 0 then
    if total_damage_to_friend = 0 then some .SS else some .S
  else if 2/3 ≤ enemySunkFrac then some .A
  else if enemy_flagship_sunk = true ∨ 5/2 ≤ gaugeQuot then some .B
  else if 1 ≤ gaugeQuot ∨ 50 ≤ friend_gauge then some .C
  else some .D

/-- Sequence of damage applications against a single ship: the only code
path that ever mutates a snapshot is FightingShip::apply_damage, so a
ship's history through any battle is a fold of apply_damage over the
damages it receives. -/
def run_attacks (fs : FightingShip) (rng : Rng) : List Nat → FightingShip × Rng
  | [] => (fs, rng)
  | d :: ds =>
    let fr := fs.apply_damage d rng
    run_attacks fr.1 fr.2 ds

/-- Immutable part of a FightingShip: everything except the snapshot. -/
def shipStatics (fs : FightingShip) : Ship × Bool × Nat :=
  (fs.ship, fs.isFriend, fs.indexInFleet)

/-- Ship constructor for concrete test states (torpedo 0, no equipment). -/
def mkShip (typeId : Option Nat) (maxHp nowHp firepower armor : Nat)
    (range : Option Range) : Ship :=
  ⟨typeId, ⟨maxHp, nowHp, firepower, armor, 0, range⟩, []⟩

/-- Random source whose draws are all 0 (a legal value for every draw). -/
def rng0 : Rng := ⟨fun _ => 0, 0, fun _ => 0, 0⟩

/-- Battle state for C1: one alive friend ship of Short range against two
alive enemy ships of Long range. -/
def c1B : Battle :=
  ⟨.same,
   [FightingShip.new (mkShip (some 2) 1 1 0 10 (some .short)) true 0],
   [FightingShip.new (mkShip (some 2) 10 10 0 10 (some .long)) false 0,
    FightingShip.new (mkShip (some 2) 10 10 0 10 (some .long)) false 1],
   []⟩

/-- Battle state for C2: the friend fleet is empty at battle start. -/
def c2Empty : Battle :=
  ⟨.same, [],
   [FightingShip.new (mkShip (some 2) 10 10 0 10 (some .long)) false 0], []⟩

/-- Battle state for C2: every friend ship is sunk (snapshot HP 0). -/
def c2Sunk : Battle :=
  ⟨.same,
   [FightingShip.new (mkShip (some 2) 10 0 0 10 (some .long)) true 0],
   [FightingShip.new (mkShip (some 2) 10 10 0 10 (some .long)) false 0], []⟩

/-- Friend flagship with 1 HP, for the C4 counterexample. -/
def c4Ship : FightingShip :=
  FightingShip.new (mkShip (some 2) 10 1 0 10 (some .short)) true 0

/-- Random source for the C5 counterexample: the armor draw (index 0) is 0
and the trivialization draw (index 1) is 1/2. -/
def c5Rng : Rng := ⟨fun i => if i = 1 then 1/2 else 0, 0, fun _ => 0, 0⟩

/-- Battle state for C5: a friend actor whose raw damage roll is negative
(firepower 0 gives 5 basic, the enemy's effective armor is 7) against an
enemy target with 10 HP. -/
def c5B : Battle :=
  ⟨.same,
   [FightingShip.new (mkShip (some 2) 1 1 0 10 (some .short)) true 0],
   [FightingShip.new (mkShip (some 2) 10 10 0 10 (some .short)) false 0],
   []⟩

/-- Battle state for C7: no battleship-class ship on either side; both
ships are alive, have equal range, and deal each other 0 damage (the
trivialized roll truncates to 0 on a 1-HP target), so phase 1 only
appends the two fire-log entries. -/
def c7B : Battle :=
  ⟨.same,
   [FightingShip.new (mkShip (some 2) 1 1 0 10 (some .short)) true 0],
   [FightingShip.new (mkShip (some 3) 1 1 0 10 (some .short)) false 0],
   []⟩

/-- Result state of phase 1 on c7B: the fleets are unchanged and the two
fire-log entries carry the trivialized damage 1 * 0.06 = 3/50. -/
def c7BAfter : Battle :=
  { c7B with logs := [.fire true 0 0 (3/50), .fire false 0 0 (3/50)] }

/-- Variant of c7B whose friend ship is battleship-class (type id 8), so
the phase-2 gate is true. -/
def c7BB : Battle :=
  ⟨.same,
   [FightingShip.new (mkShip (some 8) 1 1 0 10 (some .short)) true 0],
   [FightingShip.new (mkShip (some 3) 1 1 0 10 (some .short)) false 0],
   []⟩

/-- Random source state after phase 1 on c7B: four f64 draws (armor and
trivialization for each of the two attacks) and two range draws. -/
def c7RngAfter : Rng := ⟨rng0.floats, 4, rng0.ints, 2⟩

/-- Ship whose battle-entry HP exceeds its max HP, for the C9
counterexample (nothing in the engine or its input validation rules this
out). -/
def c9Ship : Ship := mkShip (some 2) 5 10 0 0 none

/-- Equipment whose equip_type_id list has fewer than three elements, for
the C10 counterexample (the lenient deserializer accepts it). -/
def c10Equip : Equipment := ⟨some [1], none⟩

/-- Ship carrying c10Equip. -/
def c10Ship : Ship := ⟨some 2, ⟨10, 10, 0, 0, 0, none⟩, [c10Equip]⟩

/-- Battle state for the C8 witness: friend untouched, enemy fully sunk. -/
def c8BS : Battle :=
  ⟨.same,
   [FightingShip.new (mkShip (some 2) 10 10 0 10 (some .short)) true 0],
   [FightingShip.new (mkShip (some 2) 10 0 0 10 (some .short)) false 0],
   []⟩

/-- Battle state for the C8 witness: friend damaged (HP 10 down to 5),
enemy fully sunk. -/
def c8BD : Battle :=
  ⟨.same,
   [⟨mkShip (some 2) 10 10 0 10 (some .short), true, 0, ⟨5⟩⟩],
   [FightingShip.new (mkShip (some 2) 10 0 0 10 (some .short)) false 0],
   []⟩

/-! Theorems. -/

/-- Validity of the all-zero random source. -/
theorem rng0_valid : rng0.Valid := by
  intro i
  constructor
  · exact le_refl 0
  · norm_num [rng0]

/-- Floor of the real square root of a non-negative rational equals the
integer square root of its floor; this justifies the computable
realisation of the capping formula's sqrt-floor. -/
theorem natSqrt_floor_eq (q : ℚ) (hq : 0 ≤ q) :
    ((Nat.sqrt (Int.toNat ⌊q⌋) : ℤ)) = ⌊Real.sqrt ((q : ℝ))⌋ := by
  have hq0 : (0 : ℝ) ≤ (q : ℝ) := by exact_mod_cast hq
  have hfl : (0 : ℤ) ≤ ⌊q⌋ := Int.floor_nonneg.mpr hq
  set m : ℕ := Int.toNat ⌊q⌋ with hm
  have hmz : ((m : ℤ)) = ⌊q⌋ := by rw [hm, Int.toNat_of_nonneg hfl]
  have hmq : ((m : ℚ)) ≤ q := by
    have : ((m : ℤ) : ℚ) ≤ q := by rw [hmz]; exact Int.floor_le q
    exact_mod_cast this
  have hqm : q < (m : ℚ) + 1 := by
    have h1 : q < ((⌊q⌋ : ℤ) : ℚ) + 1 := Int.lt_floor_add_one q
    have h2 : (((m : ℤ)) : ℚ) = ((⌊q⌋ : ℤ) : ℚ) := by exact_mod_cast hmz
    push_cast at h1 h2 ⊢
    linarith
  set n : ℕ := Nat.sqrt m with hn
  have h1 : ((n : ℝ)) ≤ Real.sqrt (q : ℝ) := by
    rw [Real.le_sqrt (by positivity) hq0]
    have hnm : n ^ 2 ≤ m := Nat.sqrt_le' m
    calc ((n : ℝ)) ^ 2 = ((n ^ 2 : ℕ) : ℝ) := by push_cast; ring
      _ ≤ (m : ℝ) := by exact_mod_cast hnm
      _ ≤ (q : ℝ) := by exact_mod_cast hmq
  have h2 : Real.sqrt (q : ℝ) < (n : ℝ) + 1 := by
    rw [Real.sqrt_lt' (by positivity)]
    have hmn : m < (n + 1) ^ 2 := Nat.lt_succ_sqrt' m
    calc (q : ℝ) < (m : ℝ) + 1 := by exact_mod_cast hqm
      _ ≤ (((n + 1) ^ 2 : ℕ) : ℝ) := by exact_mod_cast hmn
      _ = ((n : ℝ) + 1) ^ 2 := by push_cast; ring
  symm
  rw [Int.floor_eq_iff]
  constructor
  · exact_mod_cast h1
  · exact_mod_cast h2

/-- C6: for every pre-cap firepower value pre ≥ 0 the capping stage
returns min(pre, 220) + floor(sqrt(max(pre - 220, 0))); pre = 200 yields
200 with no bonus term, and pre = 230 yields exactly
220 + floor(sqrt 10) = 223. -/
theorem C6_fp_capping (pre : ℚ) (hpre : 0 ≤ pre) :
    ((fp_capping pre 220 : ℚ) : ℝ) =
      min ((pre : ℚ) : ℝ) 220 +
        ((⌊Real.sqrt (max (((pre : ℚ) : ℝ) - 220) 0)⌋ : ℤ) : ℝ) ∧
    fp_capping 200 220 = 200 ∧
    ((fp_capping 230 220 : ℚ) : ℝ) = 220 + ((⌊Real.sqrt 10⌋ : ℤ) : ℝ) ∧
    fp_capping 230 220 = 223 := by
  have hmax : ∀ x : ℚ, (0 : ℚ) ≤ max (x - 220) 0 := fun x => le_max_right _ _
  have hkey : ∀ x : ℚ,
      ((Nat.sqrt (Int.toNat ⌊max (x - 220) 0⌋) : ℤ)) =
        ⌊Real.sqrt ((max (x - 220) 0 : ℚ) : ℝ)⌋ := fun x =>
    natSqrt_floor_eq _ (hmax x)
  have h200 : fp_capping 200 220 = 200 := by
    unfold fp_capping
    rw [min_eq_left (by norm_num : (200 : ℚ) ≤ 220)]
    rw [max_eq_right (by norm_num : ((200 : ℚ) - 220) ≤ 0)]
    simp [Int.floor_zero]
  have hsub : (230 : ℚ) - 220 = 10 := by norm_num
  have hmax10 : max ((230 : ℚ) - 220) 0 = 10 := by
    rw [hsub, max_eq_left (by norm_num : (0 : ℚ) ≤ 10)]
  have hf10 : ⌊(10 : ℚ)⌋ = 10 := by
    have h10 : ((10 : ℤ) : ℚ) = 10 := by norm_num
    rw [← h10, Int.floor_intCast]
  have htn10 : Int.toNat 10 = 10 := by decide
  have hsqrt10 : Nat.sqrt (Int.toNat 10) = 3 := by
    rw [htn10]
    have hlo : 3 ≤ Nat.sqrt 10 := Nat.le_sqrt.mpr (by norm_num)
    have hhi : Nat.sqrt 10 < 4 := Nat.sqrt_lt.mpr (by norm_num)
    omega
  have h230 : fp_capping 230 220 = 223 := by
    unfold fp_capping
    rw [min_eq_right (by norm_num : (220 : ℚ) ≤ 230), hmax10, hf10, hsqrt10]
    norm_num
  refine ⟨?_, h200, ?_, h230⟩
  · unfold fp_capping
    push_cast
    congr 1
    have hthis := hkey pre
    have hc : ((max (pre - 220) 0 : ℚ) : ℝ) = max (((pre : ℚ) : ℝ) - 220) 0 := by
      rw [Rat.cast_max]; push_cast; rfl
    rw [hc] at hthis
    exact_mod_cast hthis
  · have hthis := hkey 230
    rw [hmax10] at hthis
    have hc : (((10 : ℚ)) : ℝ) = 10 := by norm_num
    rw [hc, hf10, hsqrt10] at hthis
    have h3 : ⌊Real.sqrt 10⌋ = 3 := by exact_mod_cast hthis.symm
    rw [h3, h230]
    norm_num

/-- Witness for C6 at the concrete input pre = 200. -/
theorem C6_fp_capping_witness :
    (0 : ℚ) ≤ 200 ∧ fp_capping 200 220 = 200 :=
  ⟨by norm_num, (C6_fp_capping 200 (by norm_num)).2.1⟩

/-- C10 counterexample: an equipment whose equip_type_id list has a single
element makes is_attack_aircraft read id[2] out of bounds — a panic,
modelled by none — and has_attack_aircraft propagates it, so neither
returns a Boolean. -/
theorem C10_attack_aircraft_counterexample :
    c10Equip.is_attack_aircraft = none ∧
    c10Ship.has_attack_aircraft = none := by
  decide

/-- C10 amended: for every ship all of whose equipments' equip_type_id
lists, when present, have at least three elements, has_attack_aircraft
returns a Boolean without panicking. -/
theorem C10_attack_aircraft_amended (s : Ship)
    (h : ∀ e ∈ s.equips, ∀ l, e.equipTypeId = some l → 3 ≤ l.length) :
    (s.has_attack_aircraft).isSome = true := by
  have main : ∀ es : List Equipment,
      (∀ e ∈ es, ∀ l, e.equipTypeId = some l → 3 ≤ l.length) →
      (anyAttackAircraft es).isSome = true := by
    intro es
    induction es with
    | nil => intro _; rfl
    | cons e rest ih =>
      intro hh
      have he : ∀ l, e.equipTypeId = some l → 3 ≤ l.length :=
        hh e (List.mem_cons_self e rest)
      have hrest := ih (fun e' he' => hh e' (List.mem_cons_of_mem e he'))
      have hsome : e.is_attack_aircraft.isSome = true := by
        unfold Equipment.is_attack_aircraft
        cases hid : e.equipTypeId with
        | none => rfl
        | some l =>
          have h3 := he l hid
          cases hg : l.get? 2 with
          | none =>
            have := List.get?_eq_none.mp hg
            omega
          | some v =>
            simp only [List.get?_eq_getElem?] at hg
            simp [hg]
      unfold anyAttackAircraft
      cases hia : e.is_attack_aircraft with
      | none => rw [hia] at hsome; simp at hsome
      | some b =>
        cases b with
        | true => rfl
        | false => exact hrest
  exact main s.equips h

/-- Witness for C10 amended: a ship with a well-formed three-element
equip_type_id list. -/
theorem C10_attack_aircraft_witness :
    (∀ e ∈ (Ship.mk (some 2) ⟨10, 10, 0, 0, 0, none⟩
        [⟨some [0, 0, 7], none⟩]).equips,
      ∀ l, e.equipTypeId = some l → 3 ≤ l.length) ∧
    ((Ship.mk (some 2) ⟨10, 10, 0, 0, 0, none⟩
        [⟨some [0, 0, 7], none⟩]).has_attack_aircraft).isSome = true :=
  ⟨by decide, C10_attack_aircraft_amended _ (by decide)⟩

section
attribute [local semireducible] Rat.mul Rat.add Rat.sub Rat.inv Rat.ofScientific

/-- Cast collapse for the as-u16 modelling of floor-then-cast. -/
theorem f64_as_u16_intCast (z : ℤ) :
    f64_as_u16 ((z : ℚ)) = min (Int.toNat z) 65535 := by
  unfold f64_as_u16
  rw [Int.floor_intCast]

/-- Bounds on floor(hp * r) for a draw r in [0, 1) on a positive HP. -/
theorem floor_mul_bounds (hp : ℕ) (r : ℚ) (hhp : 1 ≤ hp) (h0 : 0 ≤ r)
    (h1 : r < 1) :
    0 ≤ ⌊(hp : ℚ) * r⌋ ∧ ⌊(hp : ℚ) * r⌋ ≤ (hp : ℤ) - 1 := by
  constructor
  · exact Int.floor_nonneg.mpr (by positivity)
  · have hpos : (0 : ℚ) < (hp : ℚ) := by exact_mod_cast hhp
    have hlt : (hp : ℚ) * r < ((hp : ℤ) : ℚ) := by
      push_cast
      nlinarith
    have := Int.floor_lt.mpr hlt
    omega

/-- Bounds on the flagship protection damage
floor(hp*0.5 + floor(hp*r)*0.3): it is at least the integer half of hp
and strictly below hp, for every draw r in [0, 1). -/
theorem flagship_floor_bounds (hp : ℕ) (r : ℚ) (hhp : 1 ≤ hp) (h0 : 0 ≤ r)
    (h1 : r < 1) :
    (hp : ℤ) / 2 ≤ ⌊(hp : ℚ) * (1/2) + ((⌊(hp : ℚ) * r⌋ : ℤ) : ℚ) * (3/10)⌋ ∧
    ⌊(hp : ℚ) * (1/2) + ((⌊(hp : ℚ) * r⌋ : ℤ) : ℚ) * (3/10)⌋ < (hp : ℤ) := by
  obtain ⟨hk0, hk1⟩ := floor_mul_bounds hp r hhp h0 h1
  have hkq0 : (0 : ℚ) ≤ ((⌊(hp : ℚ) * r⌋ : ℤ) : ℚ) := by exact_mod_cast hk0
  have hkq1 : ((⌊(hp : ℚ) * r⌋ : ℤ) : ℚ) ≤ (hp : ℚ) - 1 := by
    have h2 : ((⌊(hp : ℚ) * r⌋ : ℤ) : ℚ) ≤ (((hp : ℤ) - 1 : ℤ) : ℚ) := by
      exact_mod_cast hk1
    push_cast at h2
    linarith
  have hq1 : (1 : ℚ) ≤ (hp : ℚ) := by exact_mod_cast hhp
  constructor
  · have hdiv : ⌊(hp : ℚ) / 2⌋ = (hp : ℤ) / 2 := by
      rw [show ((hp : ℚ)) = (((hp : ℤ) : ℚ)) from by push_cast; rfl,
          show ((2 : ℚ)) = (((2 : ℕ) : ℚ)) from by norm_num]
      rw [Rat.floor_intCast_div_natCast]
      norm_num
    have hmono : ⌊(hp : ℚ) / 2⌋ ≤
        ⌊(hp : ℚ) * (1/2) + ((⌊(hp : ℚ) * r⌋ : ℤ) : ℚ) * (3/10)⌋ := by
      apply Int.floor_mono
      linarith
    rw [hdiv] at hmono
    exact hmono
  · apply Int.floor_lt.mpr
    push_cast
    linarith

/-- HP left on a friend flagship by the protected damage path: the branch
of apply_damage taken when the target is a friend flagship and the damage
would sink it. -/
theorem apply_damage_flagship (fs : FightingShip) (diff : Nat) (rng : Rng)
    (hValid : rng.Valid) (halive : 1 ≤ fs.hp_now) (hu16 : fs.hp_now ≤ 65535)
    (hbig : fs.hp_now ≤ diff) (hfriend : fs.isFriend = true)
    (hflag : fs.indexInFleet = 0) :
    (fs.apply_damage diff rng).1.hp_now =
      fs.hp_now - Int.toNat ⌊(fs.hp_now : ℚ) * (1/2) +
        ((⌊(fs.hp_now : ℚ) * rng.floats rng.floatIdx⌋ : ℤ) : ℚ) * (3/10)⌋ := by
  obtain ⟨hr0, hr1⟩ := hValid rng.floatIdx
  obtain ⟨hlow, hhigh⟩ :=
    flagship_floor_bounds fs.hp_now (rng.floats rng.floatIdx) halive hr0 hr1
  unfold FightingShip.apply_damage
  rw [if_pos ⟨hfriend, hbig⟩, if_pos hflag]
  simp only [FightingShip.hp_now, ShipSnapshot.apply_damage, Rng.nextFloat]
    at hlow hhigh hu16 halive ⊢
  rw [f64_as_u16_intCast, Nat.min_eq_left (by omega)]

/-- C3: the anti-sink rule in apply_damage.  For an alive target whose
incoming damage is at least its current HP: a friend flagship takes
floor(hp*0.5 + floor(hp*r)*0.3) for the fresh draw r instead and stays
above 0 HP; a friend non-flagship is left at exactly 1 HP; an enemy-side
target takes the damage unmodified and reaches exactly 0 HP. -/
theorem C3_anti_sink_rule (fs : FightingShip) (diff : Nat) (rng : Rng)
    (hValid : rng.Valid) (halive : 1 ≤ fs.hp_now) (hu16 : fs.hp_now ≤ 65535)
    (hbig : fs.hp_now ≤ diff) :
    (fs.isFriend = true → fs.indexInFleet = 0 →
      (fs.apply_damage diff rng).1.hp_now =
        fs.hp_now - Int.toNat ⌊(fs.hp_now : ℚ) * (1/2) +
          ((⌊(fs.hp_now : ℚ) * rng.floats rng.floatIdx⌋ : ℤ) : ℚ) * (3/10)⌋ ∧
      0 < (fs.apply_damage diff rng).1.hp_now) ∧
    (fs.isFriend = true → ¬fs.indexInFleet = 0 →
      (fs.apply_damage diff rng).1.hp_now = 1) ∧
    (fs.isFriend = false →
      (fs.apply_damage diff rng).1.hp_now = fs.hp_now - diff ∧
      (fs.apply_damage diff rng).1.hp_now = 0) := by
  obtain ⟨hr0, hr1⟩ := hValid rng.floatIdx
  obtain ⟨hlow, hhigh⟩ :=
    flagship_floor_bounds fs.hp_now (rng.floats rng.floatIdx) halive hr0 hr1
  refine ⟨?_, ?_, ?_⟩
  · intro hfriend hflag
    have heq := apply_damage_flagship fs diff rng hValid halive hu16 hbig
      hfriend hflag
    refine ⟨heq, ?_⟩
    rw [heq]
    have hd : Int.toNat ⌊(fs.hp_now : ℚ) * (1/2) +
        ((⌊(fs.hp_now : ℚ) * rng.floats rng.floatIdx⌋ : ℤ) : ℚ) * (3/10)⌋ <
        fs.hp_now := by omega
    exact Nat.sub_pos_of_lt hd
  · intro hfriend hflag
    unfold FightingShip.apply_damage
    rw [if_pos ⟨hfriend, hbig⟩, if_neg hflag]
    simp only [FightingShip.hp_now, ShipSnapshot.apply_damage] at halive ⊢
    rw [if_neg (by omega : ¬fs.snapshot.hp = 0)]
    omega
  · intro hfoe
    unfold FightingShip.apply_damage
    rw [if_neg (by simp [hfoe])]
    refine ⟨rfl, ?_⟩
    show fs.snapshot.hp - diff = 0
    have hb : fs.snapshot.hp ≤ diff := hbig
    omega

/-- Witness for C3: a 10-HP friend flagship hit for 10 survives at 5 HP
(draw 0), a 10-HP friend non-flagship hit for 12 survives at exactly 1 HP,
and a 10-HP enemy ship hit for 12 sinks to 0 HP. -/
theorem C3_anti_sink_rule_witness :
    ((FightingShip.new (mkShip (some 2) 10 10 0 0 none) true 0).apply_damage
      10 rng0).1.hp_now = 5 ∧
    ((FightingShip.new (mkShip (some 2) 10 10 0 0 none) true 1).apply_damage
      12 rng0).1.hp_now = 1 ∧
    ((FightingShip.new (mkShip (some 2) 10 10 0 0 none) false 0).apply_damage
      12 rng0).1.hp_now = 0 := by
  refine ⟨?_, ?_, ?_⟩
  · have h := (C3_anti_sink_rule
      (FightingShip.new (mkShip (some 2) 10 10 0 0 none) true 0) 10 rng0
      rng0_valid (by decide) (by decide) (by decide)).1 rfl rfl
    rw [h.1]
    decide
  · exact (C3_anti_sink_rule
      (FightingShip.new (mkShip (some 2) 10 10 0 0 none) true 1) 12 rng0
      rng0_valid (by decide) (by decide) (by decide)).2.1 rfl (by decide)
  · exact ((C3_anti_sink_rule
      (FightingShip.new (mkShip (some 2) 10 10 0 0 none) false 0) 12 rng0
      rng0_valid (by decide) (by decide) (by decide)).2.2 rfl).2

/-- C4 counterexample: a friend flagship at 1 HP whose incoming damage 2
exceeds its HP ends at 1 HP (the protection damage floor(0.5 + 0) is 0),
but floor(hp*0.8) = 0, so the claimed upper bound fails at hp = 1. -/
theorem C4_flagship_bound_counterexample :
    rng0.Valid ∧ (c4Ship.isFriend = true ∧ c4Ship.indexInFleet = 0 ∧
    c4Ship.hp_now = 1 ∧ c4Ship.hp_now < 2 ∧
    (c4Ship.apply_damage 2 rng0).1.hp_now = 1 ∧
    ⌊(c4Ship.hp_now : ℚ) * (8/10)⌋ = 0 ∧
    ¬(((c4Ship.apply_damage 2 rng0).1.hp_now : ℤ) ≤
        ⌊(c4Ship.hp_now : ℚ) * (8/10)⌋)) :=
  ⟨rng0_valid, by decide⟩

/-- C4 amended: for every friend flagship with 2 ≤ hp ≤ 65535 whose
incoming damage exceeds hp, and every draw r in [0,1), the HP after
apply_damage is strictly positive and at most floor(hp*0.8).  (The claim
as stated fails only at hp = 1, where the ship survives at 1 HP while
floor(0.8) = 0.) -/
theorem C4_flagship_bound_amended (fs : FightingShip) (diff : Nat) (rng : Rng)
    (hValid : rng.Valid) (hfriend : fs.isFriend = true)
    (hflag : fs.indexInFleet = 0) (hhp : 2 ≤ fs.hp_now)
    (hu16 : fs.hp_now ≤ 65535) (hbig : fs.hp_now < diff) :
    0 < (fs.apply_damage diff rng).1.hp_now ∧
    (((fs.apply_damage diff rng).1.hp_now : ℤ) ≤ ⌊(fs.hp_now : ℚ) * (8/10)⌋) := by
  obtain ⟨hr0, hr1⟩ := hValid rng.floatIdx
  obtain ⟨hlow, hhigh⟩ :=
    flagship_floor_bounds fs.hp_now (rng.floats rng.floatIdx) (by omega) hr0 hr1
  have heq := apply_damage_flagship fs diff rng hValid (by omega) hu16
    (by omega) hfriend hflag
  have hfl8 : ⌊(fs.hp_now : ℚ) * (8/10)⌋ = (8 * (fs.hp_now : ℤ)) / 10 := by
    rw [show ((fs.hp_now : ℚ)) * (8/10) =
        (((8 * (fs.hp_now : ℤ)) : ℤ) : ℚ) / ((10 : ℕ) : ℚ) from by
      push_cast; ring]
    rw [Rat.floor_intCast_div_natCast]
    norm_num
  rw [heq, hfl8]
  constructor
  · omega
  · omega

/-- Witness for C4 amended: a 10-HP friend flagship hit for 11 with draw 0
ends at 5 HP, within (0, floor(8)]. -/
theorem C4_flagship_bound_witness :
    0 < ((FightingShip.new (mkShip (some 2) 10 10 0 0 none) true 0).apply_damage
        11 rng0).1.hp_now ∧
    ((((FightingShip.new (mkShip (some 2) 10 10 0 0 none) true 0).apply_damage
        11 rng0).1.hp_now : ℤ) ≤
      ⌊((FightingShip.new (mkShip (some 2) 10 10 0 0 none) true 0).hp_now : ℚ) * (8/10)⌋) :=
  C4_flagship_bound_amended
    (FightingShip.new (mkShip (some 2) 10 10 0 0 none) true 0) 11 rng0
    rng0_valid rfl rfl (by decide) (by decide) (by decide)

/-- C5 counterexample: in a battle state where the raw damage roll is
negative (firepower 5 against effective armor 7), an enemy target with 10
HP and trivialization draw 1/2 takes applied damage 1 (HP 10 -> 9),
because the source computes hp*0.06 + floor(hp*r)*0.08 = 0.6 + 0.4 = 1
without flooring the first term; the claim's formula
floor(hp*0.06) + floor(hp*r)*0.08 gives 0.4, which is not 1 (and
truncates to applied damage 0). -/
theorem C5_trivial_damage_counterexample :
    ((c5B.fire_phase_helper c5Rng [(true, 0)]).map fun p =>
      p.1.enemyFleet.map (fun fs => fs.hp_now)) = some [9] ∧
    ((c5B.fire_phase_helper c5Rng [(true, 0)]).map fun p => p.1.logs) =
      some [.fire true 0 0 1] ∧
    trivialized_damage 10 (1/2) = 1 ∧
    f64_as_u16 (trivialized_damage 10 (1/2)) = 1 ∧
    ((⌊(10 : ℚ) * (6/100)⌋ : ℤ) : ℚ) + ((⌊(10 : ℚ) * (1/2)⌋ : ℤ) : ℚ) * (8/100) =
      2/5 ∧
    ((1 : ℚ) ≠ 2/5) ∧
    f64_as_u16 (((⌊(10 : ℚ) * (6/100)⌋ : ℤ) : ℚ) +
      ((⌊(10 : ℚ) * (1/2)⌋ : ℤ) : ℚ) * (8/100)) = 0 := by
  decide

/-- C5 amended: when the raw damage floor(firepower - effectiveArmor) is
non-positive, the damage block takes the trivialized branch, and the
damage applied to the target (the as-u16 cast) equals the floor of the
whole sum hp_now*0.06 + floor(hp_now*r')*0.08 — the 0.06 term is not
floored separately.  The applied trivialized damage is moreover always
strictly below the target's current HP. -/
theorem C5_trivial_damage_amended (firepower armor : ℚ) (hpNow : Nat) (r : ℚ)
    (hr0 : 0 ≤ r) (hr1 : r < 1) (hhp : hpNow ≤ 65535)
    (hraw : ⌊firepower - armor⌋ ≤ 0) :
    (if 0 < ((⌊firepower - armor⌋ : ℤ) : ℚ) then ((⌊firepower - armor⌋ : ℤ) : ℚ)
      else trivialized_damage hpNow r) = trivialized_damage hpNow r ∧
    f64_as_u16 (trivialized_damage hpNow r) =
      Int.toNat ⌊(hpNow : ℚ) * (6/100) + ((⌊(hpNow : ℚ) * r⌋ : ℤ) : ℚ) * (8/100)⌋ ∧
    (1 ≤ hpNow → f64_as_u16 (trivialized_damage hpNow r) < hpNow) := by
  refine ⟨?_, ?_, ?_⟩
  · rw [if_neg]
    rw [not_lt]
    exact_mod_cast hraw
  · unfold f64_as_u16 trivialized_damage
    rcases Nat.eq_zero_or_pos hpNow with h0 | h1
    · subst h0
      norm_num
    · obtain ⟨hk0, hk1⟩ := floor_mul_bounds hpNow r h1 hr0 hr1
      have hkq1 : ((⌊(hpNow : ℚ) * r⌋ : ℤ) : ℚ) ≤ (hpNow : ℚ) - 1 := by
        have h2 : ((⌊(hpNow : ℚ) * r⌋ : ℤ) : ℚ) ≤ (((hpNow : ℤ) - 1 : ℤ) : ℚ) := by
          exact_mod_cast hk1
        push_cast at h2
        linarith
      have hq : (hpNow : ℚ) ≤ 65535 := by exact_mod_cast hhp
      have hT : (hpNow : ℚ) * (6/100) +
          ((⌊(hpNow : ℚ) * r⌋ : ℤ) : ℚ) * (8/100) < ((65535 : ℤ) : ℚ) := by
        push_cast
        linarith
      have hfT := Int.floor_lt.mpr hT
      rw [Nat.min_eq_left (by omega)]
  · intro h1
    unfold f64_as_u16 trivialized_damage
    obtain ⟨hk0, hk1⟩ := floor_mul_bounds hpNow r h1 hr0 hr1
    have hkq1 : ((⌊(hpNow : ℚ) * r⌋ : ℤ) : ℚ) ≤ (hpNow : ℚ) - 1 := by
      have h2 : ((⌊(hpNow : ℚ) * r⌋ : ℤ) : ℚ) ≤ (((hpNow : ℤ) - 1 : ℤ) : ℚ) := by
        exact_mod_cast hk1
      push_cast at h2
      linarith
    have hq1 : (1 : ℚ) ≤ (hpNow : ℚ) := by exact_mod_cast h1
    have hT : (hpNow : ℚ) * (6/100) +
        ((⌊(hpNow : ℚ) * r⌋ : ℤ) : ℚ) * (8/100) < ((hpNow : ℤ) : ℚ) := by
      push_cast
      linarith
    have hfT := Int.floor_lt.mpr hT
    omega

/-- Witness for C5 amended at firepower 5, armor 7, a 10-HP target and
draw 1/2. -/
theorem C5_trivial_damage_witness :
    (0 : ℚ) ≤ 1/2 ∧ ((1/2 : ℚ)) < 1 ∧ (10 : ℕ) ≤ 65535 ∧ ⌊(5 : ℚ) - 7⌋ ≤ 0 ∧
    f64_as_u16 (trivialized_damage 10 (1/2)) =
      Int.toNat ⌊((10 : ℕ) : ℚ) * (6/100) +
        ((⌊((10 : ℕ) : ℚ) * (1/2)⌋ : ℤ) : ℚ) * (8/100)⌋ :=
  ⟨by norm_num, by norm_num, by norm_num, by decide,
    (C5_trivial_damage_amended 5 7 10 (1/2) (by norm_num) (by norm_num)
      (by norm_num) (by decide)).2.1⟩

/-- Every apply_damage call lowers the snapshot HP or leaves it unchanged,
and never touches the immutable ship record: every branch ends in the
saturating snapshot subtraction. -/
theorem apply_damage_hp_le (fs : FightingShip) (d : Nat) (rng : Rng) :
    (fs.apply_damage d rng).1.hp_now ≤ fs.hp_now ∧
    (fs.apply_damage d rng).1.ship = fs.ship := by
  unfold FightingShip.apply_damage
  split
  · split
    · exact ⟨Nat.sub_le _ _, rfl⟩
    · exact ⟨Nat.sub_le _ _, rfl⟩
  · exact ⟨Nat.sub_le _ _, rfl⟩

/-- HP monotonicity and ship immutability extend to any attack sequence. -/
theorem run_attacks_props (fs : FightingShip) (rng : Rng) (ds : List Nat) :
    (run_attacks fs rng ds).1.hp_now ≤ fs.hp_now ∧
    (run_attacks fs rng ds).1.ship = fs.ship := by
  induction ds generalizing fs rng with
  | nil => exact ⟨le_refl _, rfl⟩
  | cons d ds ih =>
    unfold run_attacks
    obtain ⟨h1, h2⟩ := apply_damage_hp_le fs d rng
    obtain ⟨h3, h4⟩ := ih (fs.apply_damage d rng).1 (fs.apply_damage d rng).2
    exact ⟨le_trans h3 h1, h4.trans h2⟩

/-- C9 counterexample: a ship whose battle-entry HP (10) exceeds its max
HP (5) already violates the claimed bound before any attack (the empty
attack sequence); nothing in the engine clamps entry HP to max HP. -/
theorem C9_hp_invariant_counterexample :
    (run_attacks (FightingShip.new c9Ship true 1) rng0 []).1.hp_now = 10 ∧
    (run_attacks (FightingShip.new c9Ship true 1) rng0 []).1.ship.max_hp = 5 ∧
    ¬((run_attacks (FightingShip.new c9Ship true 1) rng0 []).1.hp_now ≤
      (run_attacks (FightingShip.new c9Ship true 1) rng0 []).1.ship.max_hp) := by
  refine ⟨rfl, rfl, by decide⟩

/-- C9 amended: provided the ship enters battle with HP at most its max
HP, then along every sequence of attack resolutions the snapshot HP never
goes negative, never increases, and never exceeds the max HP.  Since the
damage list ranges over all prefixes as well, this bounds every
intermediate snapshot, in particular the final reported HP. -/
theorem C9_hp_invariant_amended (fs : FightingShip) (rng : Rng) (ds : List Nat)
    (hinit : fs.hp_now ≤ fs.ship.max_hp) :
    0 ≤ (run_attacks fs rng ds).1.hp_now ∧
    (run_attacks fs rng ds).1.hp_now ≤ fs.hp_now ∧
    (run_attacks fs rng ds).1.hp_now ≤ (run_attacks fs rng ds).1.ship.max_hp := by
  obtain ⟨h1, h2⟩ := run_attacks_props fs rng ds
  refine ⟨Nat.zero_le _, h1, ?_⟩
  rw [h2]
  exact le_trans h1 hinit

/-- Witness for C9 amended: a 10-HP, max-10 friend ship through the attack
sequence [3, 4]. -/
theorem C9_hp_invariant_witness :
    (FightingShip.new (mkShip (some 2) 10 10 0 0 none) true 0).hp_now ≤
      (FightingShip.new (mkShip (some 2) 10 10 0 0 none) true 0).ship.max_hp ∧
    (run_attacks (FightingShip.new (mkShip (some 2) 10 10 0 0 none) true 0)
        rng0 [3, 4]).1.hp_now ≤
      (run_attacks (FightingShip.new (mkShip (some 2) 10 10 0 0 none) true 0)
        rng0 [3, 4]).1.ship.max_hp :=
  ⟨by decide,
    (C9_hp_invariant_amended (FightingShip.new (mkShip (some 2) 10 10 0 0 none)
      true 0) rng0 [3, 4] (by decide)).2.2⟩

end

section
attribute [local semireducible] Rat.mul Rat.add Rat.sub Rat.inv Rat.ofScientific

/-- The apply_damage of a single ship never changes its statics. -/
theorem apply_damage_statics_fs (fs : FightingShip) (d : Nat) (rng : Rng) :
    shipStatics (fs.apply_damage d rng).1 = shipStatics fs := by
  unfold FightingShip.apply_damage shipStatics
  split
  · split <;> rfl
  · rfl

/-- Setting a list element whose statics agree with the element it
replaces preserves the statics map. -/
theorem map_statics_set (l : List FightingShip) (i : Nat) (x : FightingShip)
    (h : ∀ t, l.get? i = some t → shipStatics x = shipStatics t) :
    (l.set i x).map shipStatics = l.map shipStatics := by
  induction l generalizing i with
  | nil => rfl
  | cons y ys ih =>
    cases i with
    | zero =>
      simp only [List.set, List.map]
      rw [h y rfl]
    | succ n =>
      simp only [List.set, List.map]
      rw [ih n (fun t ht => h t ht)]

/-- Battle.apply_damage preserves the statics of both fleets and the
battle direction. -/
theorem battle_apply_damage_statics (b : Battle) (tif : Bool) (ti d : Nat)
    (rng : Rng) :
    (b.apply_damage tif ti d rng).1.friendFleet.map shipStatics =
      b.friendFleet.map shipStatics ∧
    (b.apply_damage tif ti d rng).1.enemyFleet.map shipStatics =
      b.enemyFleet.map shipStatics ∧
    (b.apply_damage tif ti d rng).1.direction = b.direction := by
  unfold Battle.apply_damage
  split
  · cases hg : b.friendFleet.get? ti with
    | none => exact ⟨rfl, rfl, rfl⟩
    | some t =>
      refine ⟨?_, rfl, rfl⟩
      apply map_statics_set
      intro t2 ht2
      rw [hg] at ht2
      cases ht2
      exact apply_damage_statics_fs t d rng
  · cases hg : b.enemyFleet.get? ti with
    | none => exact ⟨rfl, rfl, rfl⟩
    | some t =>
      refine ⟨rfl, ?_, rfl⟩
      apply map_statics_set
      intro t2 ht2
      rw [hg] at ht2
      cases ht2
      exact apply_damage_statics_fs t d rng

/-- A successful push_fire_log only appends to the log buffer. -/
theorem push_fire_log_fleets (b : Battle) (af : Bool) (ai ti : Nat) (dmg : ℚ)
    (b2 : Battle) (h : b.push_fire_log af ai ti dmg = some b2) :
    b2.friendFleet = b.friendFleet ∧ b2.enemyFleet = b.enemyFleet ∧
    b2.direction = b.direction := by
  unfold Battle.push_fire_log at h
  split at h
  · cases hx : b.friendFleet.get? ai with
    | none => simp only [hx] at h; cases h
    | some u =>
      cases hy : b.enemyFleet.get? ti with
      | none => simp only [hx, hy] at h; cases h
      | some v =>
        simp only [hx, hy, Option.some.injEq] at h
        subst h
        exact ⟨rfl, rfl, rfl⟩
  · cases hx : b.enemyFleet.get? ai with
    | none => simp only [hx] at h; cases h
    | some u =>
      cases hy : b.friendFleet.get? ti with
      | none => simp only [hx, hy] at h; cases h
      | some v =>
        simp only [hx, hy, Option.some.injEq] at h
        subst h
        exact ⟨rfl, rfl, rfl⟩

/-- A successful applyAndLog preserves the statics of both fleets. -/
theorem applyAndLog_statics (b : Battle) (af : Bool) (ai ti : Nat) (dmg : ℚ)
    (rng : Rng) (p : Battle × Rng)
    (h : b.applyAndLog af ai ti dmg rng = some p) :
    p.1.friendFleet.map shipStatics = b.friendFleet.map shipStatics ∧
    p.1.enemyFleet.map shipStatics = b.enemyFleet.map shipStatics := by
  obtain ⟨h1, h2, _⟩ :=
    battle_apply_damage_statics b (!af) ti (f64_as_u16 dmg) rng
  simp only [Battle.applyAndLog] at h
  cases hg : (b.apply_damage (!af) ti (f64_as_u16 dmg) rng).1.push_fire_log
      af ai ti dmg with
  | none => rw [hg] at h; cases h
  | some b2 =>
    rw [hg] at h
    cases h
    obtain ⟨hf, he, _⟩ := push_fire_log_fleets _ af ai ti dmg b2 hg
    constructor
    · rw [hf]
      exact h1
    · rw [he]
      exact h2

/-- A successful fireStep preserves the statics of both fleets. -/
theorem fireStep_statics (b : Battle) (rng : Rng) (tag : Bool) (idx : Nat)
    (p : Battle × Rng) (h : b.fireStep rng tag idx = some p) :
    p.1.friendFleet.map shipStatics = b.friendFleet.map shipStatics ∧
    p.1.enemyFleet.map shipStatics = b.enemyFleet.map shipStatics := by
  unfold Battle.fireStep at h
  cases hga : b.get_actor tag idx with
  | none => rw [hga] at h; cases h
  | some exr =>
    rw [hga] at h
    cases exr with
    | error rsn =>
      cases h
      exact ⟨rfl, rfl⟩
    | ok actor =>
      cases htg : (b.get_target tag rng).1 with
      | none =>
        simp only [htg] at h
        cases h
        exact ⟨rfl, rfl⟩
      | some target =>
        simp only [htg] at h
        cases hfp : b.calculate_firepower actor with
        | none => simp only [hfp] at h; cases h
        | some firepower =>
          simp only [hfp] at h
          exact applyAndLog_statics b actor.isFriend actor.indexInFleet
            target.indexInFleet _ _ p h

/-- A successful fire_phase_helper run preserves the statics of both
fleets. -/
theorem fire_phase_helper_statics (order : List (Bool × Nat)) :
    ∀ (b : Battle) (rng : Rng) (p : Battle × Rng),
      b.fire_phase_helper rng order = some p →
      p.1.friendFleet.map shipStatics = b.friendFleet.map shipStatics ∧
      p.1.enemyFleet.map shipStatics = b.enemyFleet.map shipStatics := by
  induction order with
  | nil =>
    intro b rng p h
    unfold Battle.fire_phase_helper at h
    cases h
    exact ⟨rfl, rfl⟩
  | cons hd tl ih =>
    intro b rng p h
    obtain ⟨tag, idx⟩ := hd
    unfold Battle.fire_phase_helper at h
    cases hfs : b.fireStep rng tag idx with
    | none => rw [hfs] at h; cases h
    | some br =>
      rw [hfs] at h
      obtain ⟨h1, h2⟩ := fireStep_statics b rng tag idx br hfs
      obtain ⟨h3, h4⟩ := ih br.1 br.2 p h
      exact ⟨h3.trans h1, h4.trans h2⟩

/-- The battleship gate only reads the statics of the fleets. -/
theorem includes_congr (b1 b2 : Battle)
    (hf : b1.friendFleet.map shipStatics = b2.friendFleet.map shipStatics)
    (he : b1.enemyFleet.map shipStatics = b2.enemyFleet.map shipStatics) :
    b1.includes_battleship_class = b2.includes_battleship_class := by
  have key : ∀ l : List FightingShip,
      l.any (·.is_battleship_class) =
        (l.map shipStatics).any (fun q => q.1.is_battleship_class) := by
    intro l
    induction l with
    | nil => rfl
    | cons x xs ih =>
      simp only [List.map, List.any_cons, ih]
      rfl
  unfold Battle.includes_battleship_class
  rw [key, key, hf, he, ← key, ← key]

/-- C7: phase 2 runs iff the battleship-class predicate holds.  The
predicate is exactly "some ship on either side has ship_type_id in
{8, 9, 10, 12}"; it only reads immutable ship data, so its value after
phase 1 equals its value at battle start (phase 2 is not gated on whether
phase-1 damage occurred); when it is false, fire_phase is exactly the
phase-1 run (no phase-2 attack is executed), and when it is true,
fire_phase continues with the phase-2 index-order run. -/
theorem C7_phase2_gate (b : Battle) (rng : Rng) :
    (b.includes_battleship_class = true ↔
      ∃ fs ∈ b.friendFleet ++ b.enemyFleet,
        fs.ship.ship_type_id = 8 ∨ fs.ship.ship_type_id = 9 ∨
        fs.ship.ship_type_id = 10 ∨ fs.ship.ship_type_id = 12) ∧
    (∀ order p, b.fire_phase_helper rng order = some p →
      p.1.includes_battleship_class = b.includes_battleship_class) ∧
    (b.includes_battleship_class = false →
      b.fire_phase rng = (b.ordered_by_range).bind (b.fire_phase_helper rng)) ∧
    (b.includes_battleship_class = true →
      b.fire_phase rng = (b.ordered_by_range).bind (fun order =>
        (b.fire_phase_helper rng order).bind (fun p =>
          p.1.fire_phase_helper p.2 p.1.ordered_by_index))) := by
  have hinv : ∀ order p, b.fire_phase_helper rng order = some p →
      p.1.includes_battleship_class = b.includes_battleship_class := by
    intro order p h
    obtain ⟨h1, h2⟩ := fire_phase_helper_statics order b rng p h
    exact includes_congr p.1 b h1 h2
  refine ⟨?_, hinv, ?_, ?_⟩
  · unfold Battle.includes_battleship_class
    simp only [Bool.or_eq_true, List.any_eq_true, List.mem_append,
      FightingShip.is_battleship_class, Ship.is_battleship_class,
      Bool.or_eq_true, beq_iff_eq]
    constructor
    · rintro (⟨fs, hm, hty⟩ | ⟨fs, hm, hty⟩)
      · exact ⟨fs, Or.inl hm, by tauto⟩
      · exact ⟨fs, Or.inr hm, by tauto⟩
    · rintro ⟨fs, hm | hm, hty⟩
      · exact Or.inl ⟨fs, hm, by tauto⟩
      · exact Or.inr ⟨fs, hm, by tauto⟩
  · intro hfalse
    unfold Battle.fire_phase
    cases hor : b.ordered_by_range with
    | none => rfl
    | some order =>
      cases hh : b.fire_phase_helper rng order with
      | none => simp [hh]
      | some br =>
        have hbr := hinv order br hh
        simp [hh, hbr, hfalse]
  · intro htrue
    unfold Battle.fire_phase
    cases hor : b.ordered_by_range with
    | none => rfl
    | some order =>
      cases hh : b.fire_phase_helper rng order with
      | none => simp [hh]
      | some br =>
        have hbr := hinv order br hh
        simp [hh, hbr, htrue]

/-- Witness for C7 at two concrete battles: c7B without battleship-class
ships (phase 2 skipped) and c7BB with a battleship-class friend ship
(phase 2 executed), plus the gate-invariance instance across c7B's
phase 1. -/
theorem C7_phase2_gate_witness :
    c7B.includes_battleship_class = false ∧
    c7B.fire_phase rng0 = (c7B.ordered_by_range).bind (c7B.fire_phase_helper rng0) ∧
    c7BAfter.includes_battleship_class = c7B.includes_battleship_class ∧
    c7BB.includes_battleship_class = true ∧
    c7BB.fire_phase rng0 = (c7BB.ordered_by_range).bind (fun order =>
      (c7BB.fire_phase_helper rng0 order).bind (fun p =>
        p.1.fire_phase_helper p.2 p.1.ordered_by_index)) :=
  ⟨by decide,
   (C7_phase2_gate c7B rng0).2.2.1 (by decide),
   (C7_phase2_gate c7B rng0).2.1 [(true, 0), (false, 0)] (c7BAfter, c7RngAfter)
     (by rfl),
   by decide,
   (C7_phase2_gate c7BB rng0).2.2.2 (by decide)⟩

/-- C1 (code bug): in the battle state c1B — one alive friend ship of
Short range, two alive enemy ships of Long range — ordered_by_range takes
the else branch (the friend best range is not strictly greater) and
returns [(true, 0), (false, 0), (true, 1)]: the leading list, here the
enemy's sorted indices, is tagged true (friend) unconditionally, so the
pair (true, 1) attributes enemy index 1 to the one-ship friend fleet;
get_actor then indexes friend_fleet[1] out of bounds and the whole
fire_phase panics.  The same comparison sends equal best ranges to the
else branch, so ties favor the enemy, not the friend. -/
theorem C1_ordered_by_range_tag_bug :
    c1B.friendFleet.length = 1 ∧ c1B.enemyFleet.length = 2 ∧
    (c1B.friendFleet.map (fun fs => fs.range)) = [Range.short] ∧
    (c1B.enemyFleet.map (fun fs => fs.range)) = [Range.long, Range.long] ∧
    (∀ fs ∈ c1B.friendFleet ++ c1B.enemyFleet, fs.is_alive = true) ∧
    c1B.ordered_by_range = some [(true, 0), (false, 0), (true, 1)] ∧
    c1B.get_actor true 1 = none ∧
    c1B.fire_phase rng0 = none :=
  ⟨by decide, by decide, by decide, by decide, by decide, by decide, rfl, rfl⟩

/-- C2 (code bug): with an empty friend fleet at battle start, or with
every friend ship sunk, ordered_by_range unwraps the head of an empty
alive list — a panic — so fire_phase aborts instead of skipping and
producing a report with unchanged snapshots. -/
theorem C2_fire_phase_panics_on_empty_side :
    c2Empty.friendFleet = [] ∧
    (c2Empty.enemyFleet.map (fun fs => fs.is_alive)) = [true] ∧
    c2Empty.ordered_by_range = none ∧
    c2Empty.fire_phase rng0 = none ∧
    (c2Sunk.friendFleet.map (fun fs => fs.is_alive)) = [false] ∧
    (c2Sunk.enemyFleet.map (fun fs => fs.is_alive)) = [true] ∧
    c2Sunk.ordered_by_range = none ∧
    c2Sunk.fire_phase rng0 = none :=
  ⟨rfl, by decide, by decide, rfl, by decide, by decide, by decide, rfl⟩

/-- C8: for every battle state in which no friend ship is sunk and every
enemy ship is sunk, the grader returns SS exactly when the total damage
taken by the friend side is 0, and S otherwise. -/
theorem C8_grader_ss_s (b : Battle)
    (hfr : ∀ fs ∈ b.friendFleet, fs.is_alive = true)
    (hen : ∀ fs ∈ b.enemyFleet, fs.is_alive = false) :
    b.calculate_result =
      some (if b.total_damage_to_friend = 0 then BattleResult.SS
            else BattleResult.S) := by
  unfold Battle.calculate_result
  have h1 : b.friendFleet.filter (fun fs => !fs.is_alive) = [] := by
    rw [List.filter_eq_nil_iff]
    intro fs hfs
    simp [hfr fs hfs]
  have h2 : b.enemyFleet.filter (fun fs => fs.is_alive) = [] := by
    rw [List.filter_eq_nil_iff]
    intro fs hfs
    simp [hen fs hfs]
  rw [h1, h2]
  simp only [List.length_nil, lt_irrefl, if_false]
  by_cases hd : b.total_damage_to_friend = 0 <;> simp [hd]

/-- Witness for C8: an untouched friend fleet against a fully sunk enemy
grades SS; a damaged friend fleet against a fully sunk enemy grades S. -/
theorem C8_grader_ss_s_witness :
    c8BS.calculate_result = some BattleResult.SS ∧
    c8BD.calculate_result = some BattleResult.S := by
  constructor
  · have h := C8_grader_ss_s c8BS (by decide) (by decide)
    rw [h]
    decide
  · have h := C8_grader_ss_s c8BD (by decide) (by decide)
    rw [h]
    decide
end

end SimCore
